import Mathlib

/-!
Verification of the regression-discontinuity (RDD) estimation core of the
legislator-tweet pipeline (`04_rdd.py`).

The numeric code is embedded shallowly over an arbitrary `LinearOrderedField K`
(idealised exact arithmetic in place of IEEE floats).  The two special
functions used by the source — `np.sqrt` and the standard normal CDF
`scipy.stats.norm.cdf` — enter only downstream of the algebraic core and are
taken as parameters (`sq`, `Φ`); theorems about the code's use of them are
stated for the instantiation `K = ℝ`, `sq = Real.sqrt`, with the properties of
the normal CDF that matter (`Monotone Φ`, `Φ 1.96 > 0.975`) as hypotheses.

Exception behaviour of the Python is made explicit:
* `np.linalg.solve` raising `LinAlgError` on a singular normal matrix is the
  caught failure path of `wls_fit` (constructor `WlsOut.sing`, the Python
  `return None, None`);
* the integer division `n / (n - k)` in the HC1 scale raising an uncaught
  `ZeroDivisionError` when `n = 2` is `WlsOut.crash`, propagated as
  `Except.error PyErr.zeroDivisionError`.

Concrete evaluations are performed over `ℚ` (decidable) and transported to `ℝ`
along the cast ring homomorphism.
-/

namespace RDD

/-- One observation of the dataset: running variable `x`
(`days_from_election`) and outcome `y` (`pop`).  The cluster column
(`screen_name`) is accepted by `local_linear_rdd` in the source but never used
in any computation, so it is dropped here. -/
structure Obs (K : Type) where
  x : K
  y : K
deriving DecidableEq, Repr

/-- One row handed to the one-sided fitter: running variable, outcome and
triangular-kernel weight. -/
structure Triple (K : Type) where
  x : K
  y : K
  w : K
deriving DecidableEq, Repr

variable {K : Type} [LinearOrderedField K]

/-- Source function `triangular_weights`: `w = max(1 - |x|/h, 0)`. -/
def triangular_weights (x h : K) : K :=
  max (1 - |x| / h) 0

/-- The window `d = df[df[running].abs() <= h]` of `local_linear_rdd`. -/
def window (data : List (Obs K)) (h : K) : List (Obs K) :=
  data.filter fun o => |o.x| ≤ h

/-- Left-side sample (`x < 0`) of the windowed data, with kernel weights. -/
def leftTriples (data : List (Obs K)) (h : K) : List (Triple K) :=
  ((window data h).filter fun o => o.x < 0).map fun o =>
    ⟨o.x, o.y, triangular_weights o.x h⟩

/-- Right-side sample (`x ≥ 0`) of the windowed data, with kernel weights. -/
def rightTriples (data : List (Obs K)) (h : K) : List (Triple K) :=
  ((window data h).filter fun o => 0 ≤ o.x).map fun o =>
    ⟨o.x, o.y, triangular_weights o.x h⟩

/-- Sum `Σ wᵢ` — entry (0,0) of `XᵗWX` for the design matrix `X = [1, x]`. -/
def sW (T : List (Triple K)) : K := (T.map fun t => t.w).sum

/-- Sum `Σ wᵢ xᵢ` — off-diagonal entry of `XᵗWX`. -/
def sWX (T : List (Triple K)) : K := (T.map fun t => t.w * t.x).sum

/-- Sum `Σ wᵢ xᵢ²` — entry (1,1) of `XᵗWX`. -/
def sWX2 (T : List (Triple K)) : K := (T.map fun t => t.w * t.x * t.x).sum

/-- Sum `Σ wᵢ yᵢ` — first entry of `XᵗWy`. -/
def sWY (T : List (Triple K)) : K := (T.map fun t => t.w * t.y).sum

/-- Sum `Σ wᵢ xᵢ yᵢ` — second entry of `XᵗWy`. -/
def sWXY (T : List (Triple K)) : K := (T.map fun t => t.w * t.x * t.y).sum

/-- Determinant of the 2×2 normal matrix `XᵗWX`; `np.linalg.solve` raises
`LinAlgError` exactly when this vanishes (exact arithmetic). -/
def detN (T : List (Triple K)) : K := sW T * sWX2 T - sWX T * sWX T

/-- Intercept produced by `np.linalg.solve(XtWX, XtWy)` (Cramer form). -/
def beta0 (T : List (Triple K)) : K :=
  (sWX2 T * sWY T - sWX T * sWXY T) / detN T

/-- Slope produced by `np.linalg.solve(XtWX, XtWy)` (Cramer form). -/
def beta1 (T : List (Triple K)) : K :=
  (sW T * sWXY T - sWX T * sWY T) / detN T

/-- Residual `e = y - X @ beta` of one row. -/
def resid (T : List (Triple K)) (t : Triple K) : K :=
  t.y - (beta0 T + beta1 T * t.x)

/-- Sum `Σ wᵢ² eᵢ²` — entry (0,0) of the HC1 meat `XᵗW·diag(e²)·WX`. -/
def m0 (T : List (Triple K)) : K :=
  (T.map fun t => t.w * t.w * (resid T t * resid T t)).sum

/-- Sum `Σ wᵢ² eᵢ² xᵢ` — off-diagonal entry of the meat. -/
def m1 (T : List (Triple K)) : K :=
  (T.map fun t => t.w * t.w * (resid T t * resid T t) * t.x).sum

/-- Sum `Σ wᵢ² eᵢ² xᵢ²` — entry (1,1) of the meat. -/
def m2 (T : List (Triple K)) : K :=
  (T.map fun t => t.w * t.w * (resid T t * resid T t) * t.x * t.x).sum

/-- The HC1 small-sample factor `n / (n - k)` with `k = 2`; the Python
integer division raises `ZeroDivisionError` when `n = 2` (modelled separately
in `wlsFit`). -/
def hc1scale (T : List (Triple K)) : K :=
  (T.length : K) / ((T.length : K) - 2)

/-- Entry (0,0) of `(XᵗWX)⁻¹ = det⁻¹ · adjugate`. -/
def inv00 (T : List (Triple K)) : K := sWX2 T / detN T

/-- Off-diagonal entry of `(XᵗWX)⁻¹`. -/
def inv01 (T : List (Triple K)) : K := -(sWX T) / detN T

/-- Entry (1,1) of `(XᵗWX)⁻¹`. -/
def inv11 (T : List (Triple K)) : K := sW T / detN T

/-- Entry (0,0) of `V = inv @ meat @ inv * (n/(n-k))`. -/
def v00 (T : List (Triple K)) : K :=
  ((inv00 T * m0 T + inv01 T * m1 T) * inv00 T +
    (inv00 T * m1 T + inv01 T * m2 T) * inv01 T) * hc1scale T

/-- Entry (0,1) of `V`. -/
def v01 (T : List (Triple K)) : K :=
  ((inv00 T * m0 T + inv01 T * m1 T) * inv01 T +
    (inv00 T * m1 T + inv01 T * m2 T) * inv11 T) * hc1scale T

/-- Entry (1,0) of `V`. -/
def v10 (T : List (Triple K)) : K :=
  ((inv01 T * m0 T + inv11 T * m1 T) * inv00 T +
    (inv01 T * m1 T + inv11 T * m2 T) * inv01 T) * hc1scale T

/-- Entry (1,1) of `V`. -/
def v11 (T : List (Triple K)) : K :=
  ((inv01 T * m0 T + inv11 T * m1 T) * inv01 T +
    (inv01 T * m1 T + inv11 T * m2 T) * inv11 T) * hc1scale T

/-- Coefficients and robust covariance returned by a successful `wls_fit`. -/
structure Fit (K : Type) where
  b0 : K
  b1 : K
  V00 : K
  V01 : K
  V10 : K
  V11 : K
deriving DecidableEq, Repr

/-- Outcome of the Python `wls_fit`:
`sing` = `LinAlgError` caught, `return None, None`;
`crash` = uncaught `ZeroDivisionError` from `n/(n-k)` at `n = 2`;
`fit` = normal return `(beta, V)`. -/
inductive WlsOut (K : Type) where
  | sing : WlsOut K
  | crash : WlsOut K
  | fit : Fit K → WlsOut K
deriving DecidableEq, Repr

/-- The inner `wls_fit` of `local_linear_rdd`. -/
def wlsFit (T : List (Triple K)) : WlsOut K :=
  if detN T = 0 then .sing
  else if T.length = 2 then .crash
  else .fit ⟨beta0 T, beta1 T, v00 T, v01 T, v10 T, v11 T⟩

/-- The single uncaught exception the core can raise. -/
inductive PyErr where
  | zeroDivisionError : PyErr
deriving DecidableEq, Repr

/-- The two one-sided fits together with the side sample counts — everything
`local_linear_rdd` computes before the `sqrt`/CDF layer. -/
structure RddCore (K : Type) where
  fl : Fit K
  fr : Fit K
  nL : ℕ
  nR : ℕ
deriving DecidableEq, Repr

/-- Algebraic part of `local_linear_rdd`: run `wls_fit` on both sides,
propagating the uncaught `ZeroDivisionError` (left side first, as in the
source) and returning `none` when either side returned `None` (`if beta_l is
None or beta_r is None: return None`). -/
def rddCore (data : List (Obs K)) (h : K) : Except PyErr (Option (RddCore K)) :=
  match wlsFit (leftTriples data h) with
  | .crash => .error .zeroDivisionError
  | .sing =>
    match wlsFit (rightTriples data h) with
    | .crash => .error .zeroDivisionError
    | _ => .ok none
  | .fit fl =>
    match wlsFit (rightTriples data h) with
    | .crash => .error .zeroDivisionError
    | .sing => .ok none
    | .fit fr => .ok (some ⟨fl, fr, (leftTriples data h).length, (rightTriples data h).length⟩)

/-- The dict returned by `local_linear_rdd`.  `t = none` and `p = none` model
the NaN produced when `se > 0` fails. -/
structure Result (K : Type) where
  tau : K
  se : K
  t : Option K
  p : Option K
  ci_lo : K
  ci_hi : K
  n_pre : ℕ
  n_post : ℕ
  beta_l : K × K
  beta_r : K × K
deriving DecidableEq, Repr

/-- Statistics layer of `local_linear_rdd`, parametrised by the square root
`sq` (`np.sqrt`) and the standard normal CDF `Φ` (`scipy.stats.norm.cdf`). -/
def mkResult (sq Φ : K → K) (c : RddCore K) : Result K :=
  let tau := c.fr.b0 - c.fl.b0
  let se := sq (c.fr.V00 + c.fl.V00)
  let t : Option K := if 0 < se then some (tau / se) else none
  { tau := tau
    se := se
    t := t
    p := t.map fun tv => 2 * (1 - Φ |tv|)
    ci_lo := tau - 196 / 100 * se
    ci_hi := tau + 196 / 100 * se
    n_pre := c.nL
    n_post := c.nR
    beta_l := (c.fl.b0, c.fl.b1)
    beta_r := (c.fr.b0, c.fr.b1) }

/-- The full `local_linear_rdd` of the source. -/
def local_linear_rdd (sq Φ : K → K) (data : List (Obs K)) (h : K) :
    Except PyErr (Option (Result K)) :=
  (rddCore data h).map fun o => o.map (mkResult sq Φ)

/-- One row appended by the bandwidth-sensitivity sweep;
`sig` is `res["p"] < 0.05` (false when `p` is NaN). -/
structure SweepRow (K : Type) where
  h : K
  tau : K
  ci_lo : K
  ci_hi : K
  p : Option K
  sig : Bool
deriving DecidableEq, Repr

/-- Row built from a successful estimate at bandwidth `h`. -/
def mkSweepRow (hK : K) (r : Result K) : SweepRow K :=
  { h := hK
    tau := r.tau
    ci_lo := r.ci_lo
    ci_hi := r.ci_hi
    p := r.p
    sig := match r.p with
      | some pv => decide (pv < 1 / 20)
      | none => false }

/-- The bandwidth grid of the sweep, `range(30, 185, 5)`. -/
def sweepGrid : List ℕ := List.range' 30 31 5

/-- Body of the sweep loop over a list of bandwidths: pre-filter to
`|x| ≤ h`, skip if fewer than 80 windowed observations, call the estimator on
the pre-filtered data, append a row only on success (an uncaught exception
aborts the whole loop). -/
def sweepAux (sq Φ : K → K) (data : List (Obs K)) :
    List ℕ → Except PyErr (List (SweepRow K))
  | [] => .ok []
  | g :: gs =>
    let d := window data (g : K)
    if d.length < 80 then sweepAux sq Φ data gs
    else
      match local_linear_rdd sq Φ d (g : K) with
      | .error e => .error e
      | .ok none => sweepAux sq Φ data gs
      | .ok (some r) => (sweepAux sq Φ data gs).map fun rest => mkSweepRow (g : K) r :: rest

/-- Source function `sweep_rows`: the sensitivity sweep over `h = 30..180`
step 5. -/
def sweep_rows (sq Φ : K → K) (data : List (Obs K)) :
    Except PyErr (List (SweepRow K)) :=
  sweepAux sq Φ data sweepGrid

/-- The sweep with the minimum-sample admission check removed: it attempts the
estimator at every bandwidth of the list it is given.  Used to state that the
actual sweep invokes the estimator at exactly the admitted bandwidths. -/
def sweepAttempt (sq Φ : K → K) (data : List (Obs K)) :
    List ℕ → Except PyErr (List (SweepRow K))
  | [] => .ok []
  | g :: gs =>
    match local_linear_rdd sq Φ (window data (g : K)) (g : K) with
    | .error e => .error e
    | .ok none => sweepAttempt sq Φ data gs
    | .ok (some r) => (sweepAttempt sq Φ data gs).map fun rest => mkSweepRow (g : K) r :: rest

/-- The weighted normal matrix `XᵗWX` of the spec (`X = [1, x]`, `W = diag w`). -/
def XtWXM (T : List (Triple K)) : Matrix (Fin 2) (Fin 2) K :=
  !![sW T, sWX T; sWX T, sWX2 T]

/-- The weighted moment vector `XᵗWy` of the spec. -/
def XtWyV (T : List (Triple K)) : Fin 2 → K :=
  ![sWY T, sWXY T]

/-- The HC1 meat matrix `XᵗW·diag(e²)·WX` of the spec, with residuals taken
from the fitted coefficients. -/
def meatM (T : List (Triple K)) : Matrix (Fin 2) (Fin 2) K :=
  !![m0 T, m1 T; m1 T, m2 T]

/-- The sandwich covariance of the spec:
`V = (XᵗWX)⁻¹ (XᵗW·diag(e²)·WX) (XᵗWX)⁻¹ · n/(n−k)` with `k = 2`.
(Spec-side formula, stated with Mathlib's matrix inverse; the executable
code-side entries are `v00` … `v11`.) -/
noncomputable def VsandwichM (T : List (Triple K)) : Matrix (Fin 2) (Fin 2) K :=
  hc1scale T • ((XtWXM T)⁻¹ * meatM T * (XtWXM T)⁻¹)

/-- Cast of an observation along `ℚ → K`. -/
def obsCast (o : Obs ℚ) : Obs K := ⟨(o.x : K), (o.y : K)⟩

/-- Cast of a weighted row along `ℚ → K`. -/
def tripleCast (t : Triple ℚ) : Triple K := ⟨(t.x : K), (t.y : K), (t.w : K)⟩

/-- Cast of a fit along `ℚ → K`. -/
def fitCast (f : Fit ℚ) : Fit K :=
  ⟨(f.b0 : K), (f.b1 : K), (f.V00 : K), (f.V01 : K), (f.V10 : K), (f.V11 : K)⟩

/-- Cast of a `wls_fit` outcome along `ℚ → K`. -/
def wlsCast : WlsOut ℚ → WlsOut K
  | .sing => .sing
  | .crash => .crash
  | .fit f => .fit (fitCast f)

/-- Cast of the algebraic estimator output along `ℚ → K`. -/
def coreCast (c : RddCore ℚ) : RddCore K := ⟨fitCast c.fl, fitCast c.fr, c.nL, c.nR⟩

/-- Dataset for the C1 witness: zero-residual left side, a nonzero-residual
right side, bandwidth 4. -/
def Dw : List (Obs ℚ) :=
  [⟨-1, 0⟩, ⟨-2, 0⟩, ⟨-3, 0⟩, ⟨0, 0⟩, ⟨1, 1⟩, ⟨2, 0⟩]

/-- Dataset for the C1 counterexample: both sides fit exactly (all outcomes
zero), so both covariance matrices vanish and the reported SE is zero. -/
def Dz : List (Obs ℚ) :=
  [⟨-1, 0⟩, ⟨-2, 0⟩, ⟨-3, 0⟩, ⟨0, 0⟩, ⟨1, 0⟩, ⟨2, 0⟩]

/-- Weighted sample for the C2 witness (3 rows, invertible design). -/
def Tw : List (Triple ℚ) :=
  [⟨0, 0, 1⟩, ⟨1, 1, 3/4⟩, ⟨2, 0, 1/2⟩]

/-- Weighted sample for the C2 counterexample: exactly two rows, distinct `x`,
unit weights — invertible normal matrix but `n = k = 2`. -/
def Tc : List (Triple ℚ) :=
  [⟨0, 0, 1⟩, ⟨1, 0, 1⟩]

/-- Dataset for the C4 witness: one left observation, three right ones. -/
def Dc4 : List (Obs ℚ) :=
  [⟨-1, 0⟩, ⟨0, 0⟩, ⟨1, 1⟩, ⟨2, 0⟩]

/-- Dataset for the C4 counterexample: one left observation and exactly two
right observations with distinct `x` — the right fit divides by `n - k = 0`. -/
def Dc4b : List (Obs ℚ) :=
  [⟨-1, 0⟩, ⟨0, 0⟩, ⟨1, 1⟩]

/-- Dataset for the C10 witness: exactly two left observations. -/
def Dc10 : List (Obs ℚ) :=
  [⟨-2, 0⟩, ⟨-1, 0⟩]

/-- Dataset for C3: 80 observations, all with `x ≥ 0`, so every admitted
bandwidth of the sweep grid fails estimation (empty left side). -/
def D80 : List (Obs ℚ) := (List.range 80).map fun i => ⟨(i : ℚ), 0⟩

/-- Dataset for the C7 concrete scenario: 200 pre-cutoff points with outcome
mean 0.10 (outcomes 0 and 0.2 at each of 100 grid positions on `[-50, 0)`)
and 200 post-cutoff points with outcome mean 0.30 (outcomes 0.2 and 0.4 at
each of 100 grid positions on `[0, 50)`). -/
def D7 : List (Obs ℚ) :=
  ((List.range 100).flatMap fun k => [⟨-((k : ℚ) + 1) / 2, 0⟩, ⟨-((k : ℚ) + 1) / 2, 1/5⟩]) ++
  ((List.range 100).flatMap fun j => [⟨(j : ℚ) / 2, 1/5⟩, ⟨(j : ℚ) / 2, 2/5⟩])

/-- Left-side fit of the C7 scenario, computed exactly over `ℚ`. -/
def fitL7 : Fit ℚ := ⟨1/10, 0, 19849/80041500, 347/40020750, 347/40020750, 796/2021047875⟩

/-- Right-side fit of the C7 scenario, computed exactly over `ℚ`. -/
def fitR7 : Fit ℚ := ⟨3/10, 0, 20149/84991500, -353/42495750, -353/42495750, 268/701179875⟩


/-! Helper lemmas about the normal-matrix determinant and the window. -/

theorem detN_nil : detN ([] : List (Triple K)) = 0 := by
  simp [detN, sW, sWX, sWX2]

theorem detN_singleton (t : Triple K) : detN [t] = 0 := by
  simp [detN, sW, sWX, sWX2]; ring

theorem detN_short : ∀ {T : List (Triple K)}, T.length < 2 → detN T = 0
  | [], _ => detN_nil
  | [t], _ => detN_singleton t

theorem detN_pair (t1 t2 : Triple K) :
    detN [t1, t2] = t1.w * t2.w * (t1.x - t2.x) ^ 2 := by
  simp [detN, sW, sWX, sWX2]; ring

theorem detN_zero_of_x_eq_zero {T : List (Triple K)} (hx : ∀ t ∈ T, t.x = 0) :
    detN T = 0 := by
  have h1 : sWX T = 0 := by
    apply List.sum_eq_zero
    intro a ha
    obtain ⟨t, ht, rfl⟩ := List.mem_map.mp ha
    rw [hx t ht, mul_zero]
  have h2 : sWX2 T = 0 := by
    apply List.sum_eq_zero
    intro a ha
    obtain ⟨t, ht, rfl⟩ := List.mem_map.mp ha
    rw [hx t ht, mul_zero]
  rw [detN, h1, h2, mul_zero, mul_zero, sub_zero]

theorem wlsFit_sing_of_detN {T : List (Triple K)} (hd : detN T = 0) :
    wlsFit T = .sing := by
  rw [wlsFit, if_pos hd]

theorem window_idem (data : List (Obs K)) (h : K) :
    window (window data h) h = window data h := by
  simp [window, List.filter_filter]

theorem window_x_eq_zero {data : List (Obs K)} {h : K} (hh : h ≤ 0) :
    ∀ o ∈ window data h, o.x = 0 := by
  intro o ho
  rw [window, List.mem_filter] at ho
  have h1 : |o.x| ≤ h := of_decide_eq_true ho.2
  exact abs_eq_zero.mp (le_antisymm (h1.trans hh) (abs_nonneg _))

theorem leftTriples_nil_of_nonpos {data : List (Obs K)} {h : K} (hh : h ≤ 0) :
    leftTriples data h = [] := by
  rw [leftTriples, List.map_eq_nil_iff, List.filter_eq_nil_iff]
  intro o ho
  simp only [decide_eq_true_eq]
  rw [window_x_eq_zero hh o ho]
  exact lt_irrefl 0

theorem rddCore_nonpos {data : List (Obs K)} {h : K} (hh : h ≤ 0) :
    rddCore data h = .ok none := by
  have hL : wlsFit (leftTriples data h) = .sing := by
    rw [leftTriples_nil_of_nonpos hh]
    exact wlsFit_sing_of_detN detN_nil
  have hR : wlsFit (rightTriples data h) = .sing := by
    apply wlsFit_sing_of_detN
    apply detN_zero_of_x_eq_zero
    intro t ht
    rw [rightTriples] at ht
    obtain ⟨o, ho, rfl⟩ := List.mem_map.mp ht
    exact window_x_eq_zero hh o (List.mem_filter.mp ho).1
  simp only [rddCore, hL, hR]

theorem leftTriples_window (data : List (Obs K)) (h : K) :
    leftTriples (window data h) h = leftTriples data h := by
  rw [leftTriples, leftTriples, window_idem]

theorem rightTriples_window (data : List (Obs K)) (h : K) :
    rightTriples (window data h) h = rightTriples data h := by
  rw [rightTriples, rightTriples, window_idem]

theorem rddCore_window (data : List (Obs K)) (h : K) :
    rddCore (window data h) h = rddCore data h := by
  simp only [rddCore, leftTriples_window, rightTriples_window]

/-! Helper lemmas relating the scalar computation of `wlsFit` to the spec's
matrix formulas. -/

theorem detM_eq (T : List (Triple K)) : (XtWXM T).det = detN T := by
  simp [XtWXM, Matrix.det_fin_two_of, detN]

theorem XtWXM_inv (T : List (Triple K)) :
    (XtWXM T)⁻¹ = (detN T)⁻¹ • !![sWX2 T, -(sWX T); -(sWX T), sW T] := by
  rw [Matrix.inv_def, detM_eq, Ring.inverse_eq_inv, XtWXM, Matrix.adjugate_fin_two_of]

/-! Transport of the algebraic core along the cast `ℚ → K`, so that concrete
datasets can be evaluated exactly over `ℚ` and the result used over `ℝ`. -/

theorem filter_map_comm {α β : Type} (f : α → β) (p : β → Bool) (q : α → Bool)
    (hpq : ∀ a, p (f a) = q a) : ∀ l : List α, (l.map f).filter p = (l.filter q).map f := by
  intro l
  induction l with
  | nil => rfl
  | cons a l ih =>
    simp only [List.map_cons, List.filter_cons, hpq]
    cases hqa : q a <;> simp [hqa, ih]

theorem tw_cast (x h : ℚ) :
    ((triangular_weights x h : ℚ) : K) = triangular_weights (x : K) (h : K) := by
  rw [triangular_weights, triangular_weights]
  push_cast
  rfl

theorem window_cast (data : List (Obs ℚ)) (h : ℚ) :
    window (data.map (obsCast (K := K))) (h : K) = (window data h).map obsCast := by
  rw [window, window]
  apply filter_map_comm
  intro o
  simp only [obsCast]
  exact decide_eq_decide.mpr (by rw [← Rat.cast_abs, Rat.cast_le])

theorem leftTriples_cast (data : List (Obs ℚ)) (h : ℚ) :
    leftTriples (data.map (obsCast (K := K))) (h : K) =
      (leftTriples data h).map tripleCast := by
  rw [leftTriples, leftTriples, window_cast]
  rw [filter_map_comm (obsCast (K := K)) _ (fun o => decide (o.x < 0))
    (fun o => by
      simp only [obsCast]
      exact decide_eq_decide.mpr (by rw [show (0 : K) = ((0 : ℚ) : K) by norm_num, Rat.cast_lt]))]
  rw [List.map_map, List.map_map]
  apply List.map_congr_left
  intro a _
  simp [obsCast, tripleCast, tw_cast]

theorem rightTriples_cast (data : List (Obs ℚ)) (h : ℚ) :
    rightTriples (data.map (obsCast (K := K))) (h : K) =
      (rightTriples data h).map tripleCast := by
  rw [rightTriples, rightTriples, window_cast]
  rw [filter_map_comm (obsCast (K := K)) _ (fun o => decide (0 ≤ o.x))
    (fun o => by
      simp only [obsCast]
      exact decide_eq_decide.mpr (by rw [show (0 : K) = ((0 : ℚ) : K) by norm_num, Rat.cast_le]))]
  rw [List.map_map, List.map_map]
  apply List.map_congr_left
  intro a _
  simp [obsCast, tripleCast, tw_cast]

theorem sum_map_cast (f : Triple ℚ → ℚ) (g : Triple K → K)
    (hfg : ∀ t, g (tripleCast t) = ((f t : ℚ) : K)) (T : List (Triple ℚ)) :
    ((T.map tripleCast).map g).sum = (((T.map f).sum : ℚ) : K) := by
  induction T with
  | nil => simp
  | cons t ts ih => simp only [List.map_cons, List.sum_cons, hfg, ih, Rat.cast_add]

theorem sW_cast (T : List (Triple ℚ)) :
    sW (T.map (tripleCast (K := K))) = ((sW T : ℚ) : K) :=
  sum_map_cast _ _ (fun _ => rfl) T

theorem sWX_cast (T : List (Triple ℚ)) :
    sWX (T.map (tripleCast (K := K))) = ((sWX T : ℚ) : K) :=
  sum_map_cast _ _ (fun t => by simp only [tripleCast]; push_cast; ring) T

theorem sWX2_cast (T : List (Triple ℚ)) :
    sWX2 (T.map (tripleCast (K := K))) = ((sWX2 T : ℚ) : K) :=
  sum_map_cast _ _ (fun t => by simp only [tripleCast]; push_cast; ring) T

theorem sWY_cast (T : List (Triple ℚ)) :
    sWY (T.map (tripleCast (K := K))) = ((sWY T : ℚ) : K) :=
  sum_map_cast _ _ (fun t => by simp only [tripleCast]; push_cast; ring) T

theorem sWXY_cast (T : List (Triple ℚ)) :
    sWXY (T.map (tripleCast (K := K))) = ((sWXY T : ℚ) : K) :=
  sum_map_cast _ _ (fun t => by simp only [tripleCast]; push_cast; ring) T

theorem detN_cast (T : List (Triple ℚ)) :
    detN (T.map (tripleCast (K := K))) = ((detN T : ℚ) : K) := by
  rw [detN, detN, sW_cast, sWX_cast, sWX2_cast]
  push_cast
  ring

theorem beta0_cast (T : List (Triple ℚ)) :
    beta0 (T.map (tripleCast (K := K))) = ((beta0 T : ℚ) : K) := by
  rw [beta0, beta0, sWX2_cast, sWY_cast, sWX_cast, sWXY_cast, detN_cast]
  push_cast
  ring

theorem beta1_cast (T : List (Triple ℚ)) :
    beta1 (T.map (tripleCast (K := K))) = ((beta1 T : ℚ) : K) := by
  rw [beta1, beta1, sW_cast, sWXY_cast, sWX_cast, sWY_cast, detN_cast]
  push_cast
  ring

theorem resid_cast (T : List (Triple ℚ)) (t : Triple ℚ) :
    resid (T.map (tripleCast (K := K))) (tripleCast t) = ((resid T t : ℚ) : K) := by
  rw [resid, resid, beta0_cast, beta1_cast]
  simp only [tripleCast]
  push_cast
  ring

theorem m0_cast (T : List (Triple ℚ)) :
    m0 (T.map (tripleCast (K := K))) = ((m0 T : ℚ) : K) :=
  sum_map_cast _ _ (fun t => by rw [resid_cast]; simp only [tripleCast]; push_cast; ring) T

theorem m1_cast (T : List (Triple ℚ)) :
    m1 (T.map (tripleCast (K := K))) = ((m1 T : ℚ) : K) :=
  sum_map_cast _ _ (fun t => by rw [resid_cast]; simp only [tripleCast]; push_cast; ring) T

theorem m2_cast (T : List (Triple ℚ)) :
    m2 (T.map (tripleCast (K := K))) = ((m2 T : ℚ) : K) :=
  sum_map_cast _ _ (fun t => by rw [resid_cast]; simp only [tripleCast]; push_cast; ring) T

theorem hc1scale_cast (T : List (Triple ℚ)) :
    hc1scale (T.map (tripleCast (K := K))) = ((hc1scale T : ℚ) : K) := by
  rw [hc1scale, hc1scale, List.length_map]
  push_cast
  ring

theorem inv00_cast (T : List (Triple ℚ)) :
    inv00 (T.map (tripleCast (K := K))) = ((inv00 T : ℚ) : K) := by
  rw [inv00, inv00, sWX2_cast, detN_cast]
  push_cast
  ring

theorem inv01_cast (T : List (Triple ℚ)) :
    inv01 (T.map (tripleCast (K := K))) = ((inv01 T : ℚ) : K) := by
  rw [inv01, inv01, sWX_cast, detN_cast]
  push_cast
  ring

theorem inv11_cast (T : List (Triple ℚ)) :
    inv11 (T.map (tripleCast (K := K))) = ((inv11 T : ℚ) : K) := by
  rw [inv11, inv11, sW_cast, detN_cast]
  push_cast
  ring

theorem v00_cast (T : List (Triple ℚ)) :
    v00 (T.map (tripleCast (K := K))) = ((v00 T : ℚ) : K) := by
  rw [v00, v00, inv00_cast, inv01_cast, m0_cast, m1_cast, m2_cast, hc1scale_cast]
  push_cast
  ring

theorem v01_cast (T : List (Triple ℚ)) :
    v01 (T.map (tripleCast (K := K))) = ((v01 T : ℚ) : K) := by
  rw [v01, v01, inv00_cast, inv01_cast, inv11_cast, m0_cast, m1_cast, m2_cast, hc1scale_cast]
  push_cast
  ring

theorem v10_cast (T : List (Triple ℚ)) :
    v10 (T.map (tripleCast (K := K))) = ((v10 T : ℚ) : K) := by
  rw [v10, v10, inv00_cast, inv01_cast, inv11_cast, m0_cast, m1_cast, m2_cast, hc1scale_cast]
  push_cast
  ring

theorem v11_cast (T : List (Triple ℚ)) :
    v11 (T.map (tripleCast (K := K))) = ((v11 T : ℚ) : K) := by
  rw [v11, v11, inv01_cast, inv11_cast, m0_cast, m1_cast, m2_cast, hc1scale_cast]
  push_cast
  ring

theorem wlsFit_cast (T : List (Triple ℚ)) :
    wlsFit (T.map (tripleCast (K := K))) = wlsCast (wlsFit T) := by
  rw [wlsFit, wlsFit]
  by_cases hd : detN T = 0
  · rw [if_pos hd, if_pos (show detN (T.map (tripleCast (K := K))) = 0 by
      rw [detN_cast, hd, Rat.cast_zero])]
    rfl
  · rw [if_neg hd, if_neg (show ¬detN (T.map (tripleCast (K := K))) = 0 by
      rw [detN_cast]
      exact Rat.cast_ne_zero.mpr hd)]
    rw [List.length_map]
    by_cases hn : T.length = 2
    · rw [if_pos hn, if_pos hn]
      rfl
    · rw [if_neg hn, if_neg hn]
      simp [wlsCast, fitCast, beta0_cast, beta1_cast, v00_cast, v01_cast, v10_cast, v11_cast]

theorem rddCore_cast (data : List (Obs ℚ)) (h : ℚ) :
    rddCore (data.map (obsCast (K := K))) (h : K) =
      (rddCore data h).map (Option.map coreCast) := by
  simp only [rddCore, leftTriples_cast, rightTriples_cast, wlsFit_cast, List.length_map]
  cases wlsFit (leftTriples data h) <;> cases wlsFit (rightTriples data h) <;>
    simp [wlsCast, coreCast, Except.map]

/-! Helper lemmas about the sweep loop. -/

theorem sweepAux_eq_attempt (sq Φ : K → K) (data : List (Obs K)) (L : List ℕ) :
    sweepAux sq Φ data L =
      sweepAttempt sq Φ data (L.filter fun g => 80 ≤ (window data (g : K)).length) := by
  induction L with
  | nil => rfl
  | cons g gs ih =>
    by_cases hc : (window data (g : K)).length < 80
    · have hpg : (decide (80 ≤ (window data (g : K)).length)) = false := by
        simp [not_le.mpr hc]
      rw [List.filter_cons, hpg]
      simp only [sweepAux]
      rw [if_pos hc]
      simpa using ih
    · have hpg : (decide (80 ≤ (window data (g : K)).length)) = true := by
        simp [not_lt.mp hc]
      rw [List.filter_cons, hpg]
      simp only [sweepAux, sweepAttempt]
      rw [if_neg hc]
      cases hres : local_linear_rdd sq Φ (window data (g : K)) (g : K) with
      | error e => simp [hres]
      | ok o =>
        cases o with
        | none => simpa [hres] using ih
        | some r => simp [hres, ih]

theorem sweepAux_rows_from (sq Φ : K → K) (data : List (Obs K)) :
    ∀ (L : List ℕ) (rows : List (SweepRow K)),
      sweepAux sq Φ data L = .ok rows →
      ∀ row ∈ rows, ∃ g ∈ L, ∃ r : Result K,
        local_linear_rdd sq Φ (window data (g : K)) (g : K) = .ok (some r) ∧
        row = mkSweepRow (g : K) r := by
  intro L
  induction L with
  | nil =>
    intro rows hrows row hrow
    simp only [sweepAux] at hrows
    injection hrows with hnil
    rw [← hnil] at hrow
    cases hrow
  | cons g gs ih =>
    intro rows hrows row hrow
    simp only [sweepAux] at hrows
    by_cases hc : (window data (g : K)).length < 80
    · rw [if_pos hc] at hrows
      obtain ⟨g', hg', r, hok, heq⟩ := ih rows hrows row hrow
      exact ⟨g', List.mem_cons_of_mem _ hg', r, hok, heq⟩
    · rw [if_neg hc] at hrows
      cases hres : local_linear_rdd sq Φ (window data (g : K)) (g : K) with
      | error e =>
        simp only [hres] at hrows
        exact Except.noConfusion hrows
      | ok o =>
        cases o with
        | none =>
          simp only [hres] at hrows
          obtain ⟨g', hg', r, hok, heq⟩ := ih rows hrows row hrow
          exact ⟨g', List.mem_cons_of_mem _ hg', r, hok, heq⟩
        | some r =>
          simp only [hres] at hrows
          cases hrest : sweepAux sq Φ data gs with
          | error e => rw [hrest] at hrows; simp [Except.map] at hrows
          | ok rest =>
            rw [hrest] at hrows
            simp only [Except.map] at hrows
            injection hrows with hcons
            rw [← hcons] at hrow
            rcases List.mem_cons.mp hrow with hhead | htail
            · exact ⟨g, List.mem_cons_self g gs, r, hres, hhead⟩
            · obtain ⟨g', hg', r', hok, heq⟩ := ih rest hrest row htail
              exact ⟨g', List.mem_cons_of_mem _ hg', r', hok, heq⟩

/-! Exact evaluations of concrete datasets over `ℚ`. -/

set_option maxRecDepth 100000 in
theorem rddCore_D7_eval : rddCore D7 50 = .ok (some ⟨fitL7, fitR7, 200, 200⟩) := by
  with_unfolding_all rfl

theorem rddCore_Dz_eval :
    rddCore Dz 4 = .ok (some ⟨⟨0,0,0,0,0,0⟩, ⟨0,0,0,0,0,0⟩, 3, 3⟩) := by
  with_unfolding_all rfl

set_option maxRecDepth 100000 in
theorem sweepD80_eval : sweep_rows id (fun _ => (0:ℚ)) D80 = .ok [] := by
  with_unfolding_all rfl

set_option maxRecDepth 100000 in
theorem rdd80_eval :
    local_linear_rdd id (fun _ => (0:ℚ)) (window D80 ((80:ℕ):ℚ)) ((80:ℕ):ℚ) = .ok none := by
  with_unfolding_all rfl

theorem cnt80_eval : 80 ≤ (window D80 ((80:ℕ):ℚ)).length := by
  rw [show (window D80 ((80:ℕ):ℚ)).length = 80 from by with_unfolding_all rfl]

/-- Claim C1 (amended): for every dataset and bandwidth for which both
one-sided fits succeed AND the resulting standard error
`se = sqrt(V_right[0,0] + V_left[0,0])` is positive, `local_linear_rdd`
returns the record with `tau = β0_right − β0_left`, `SE = sqrt(V_r00 + V_l00)`,
`t = tau/SE`, `p = 2·(1 − Φ(|t|))`, and 95% CI bounds `tau ∓ 1.96·SE`.
The square root and normal CDF are the parameters `sq` and `Φ`; the source is
the instance `sq = Real.sqrt`, `Φ = scipy.stats.norm.cdf`.  The positivity
proviso is forced by the code's `if se > 0 else np.nan` guard (see the
counterexample, where `se = 0` yields `t = p = NaN`, modelled as `none`). -/
theorem c1_estimate_fields (sq Φ : K → K) (data : List (Obs K)) (h : K) (fl fr : Fit K)
    (hl : wlsFit (leftTriples data h) = .fit fl)
    (hr : wlsFit (rightTriples data h) = .fit fr)
    (hse : 0 < sq (fr.V00 + fl.V00)) :
    local_linear_rdd sq Φ data h = .ok (some
      { tau := fr.b0 - fl.b0
        se := sq (fr.V00 + fl.V00)
        t := some ((fr.b0 - fl.b0) / sq (fr.V00 + fl.V00))
        p := some (2 * (1 - Φ |(fr.b0 - fl.b0) / sq (fr.V00 + fl.V00)|))
        ci_lo := fr.b0 - fl.b0 - 196 / 100 * sq (fr.V00 + fl.V00)
        ci_hi := fr.b0 - fl.b0 + 196 / 100 * sq (fr.V00 + fl.V00)
        n_pre := (leftTriples data h).length
        n_post := (rightTriples data h).length
        beta_l := (fl.b0, fl.b1)
        beta_r := (fr.b0, fr.b1) }) := by
  rw [local_linear_rdd]
  simp only [rddCore, hl, hr]
  simp only [Except.map, Option.map_some', mkResult]
  rw [if_pos hse]
  rfl

/-- Witness for C1 at the concrete dataset `Dw` with bandwidth 4 over `ℚ`
(`sq = id`, `Φ = 0`): both fits succeed, the SE argument is positive, and the
returned record is exactly the one the theorem predicts. -/
theorem c1_estimate_fields_witness :
    wlsFit (leftTriples Dw (4:ℚ)) = .fit ⟨0, 0, 0, 0, 0, 0⟩ ∧
    wlsFit (rightTriples Dw (4:ℚ)) =
      .fit ⟨6/25, 3/25, 83808/390625, -33696/390625, -33696/390625, 80352/390625⟩ ∧
    (0:ℚ) < id ((83808/390625 : ℚ) + 0) ∧
    local_linear_rdd id (fun _ => (0:ℚ)) Dw 4 = .ok (some
      { tau := (6/25 : ℚ) - 0
        se := id ((83808/390625 : ℚ) + 0)
        t := some (((6/25 : ℚ) - 0) / id ((83808/390625 : ℚ) + 0))
        p := some (2 * (1 - (0:ℚ)))
        ci_lo := (6/25 : ℚ) - 0 - 196 / 100 * id ((83808/390625 : ℚ) + 0)
        ci_hi := (6/25 : ℚ) - 0 + 196 / 100 * id ((83808/390625 : ℚ) + 0)
        n_pre := (leftTriples Dw (4:ℚ)).length
        n_post := (rightTriples Dw (4:ℚ)).length
        beta_l := (0, 0)
        beta_r := (6/25, 3/25) }) := by
  have h1 : wlsFit (leftTriples Dw (4:ℚ)) = .fit ⟨0, 0, 0, 0, 0, 0⟩ := by
    with_unfolding_all rfl
  have h2 : wlsFit (rightTriples Dw (4:ℚ)) =
      .fit ⟨6/25, 3/25, 83808/390625, -33696/390625, -33696/390625, 80352/390625⟩ := by
    with_unfolding_all rfl
  have h3 : (0:ℚ) < id ((83808/390625 : ℚ) + 0) := by norm_num
  exact ⟨h1, h2, h3, c1_estimate_fields id (fun _ => 0) Dw 4 _ _ h1 h2 h3⟩

/-- Counterexample to C1 as stated: on the dataset `Dz` (all outcomes zero)
with bandwidth 4, both one-sided fits succeed, yet the code returns
`se = 0` and `t = NaN` (modelled `none`), not `t = tau/SE`: the claim's field
equations fail when the standard error vanishes. -/
theorem c1_counterexample_zero_se :
    (∃ r : Result ℝ, local_linear_rdd Real.sqrt (fun _ => 0) (Dz.map (obsCast (K := ℝ))) 4 =
        .ok (some r) ∧ r.se = 0 ∧ r.t = none) ∧
    ¬ (∀ r : Result ℝ, local_linear_rdd Real.sqrt (fun _ => 0) (Dz.map (obsCast (K := ℝ))) 4 =
        .ok (some r) → r.t = some (r.tau / r.se)) := by
  have hcast := rddCore_cast (K := ℝ) Dz 4
  rw [rddCore_Dz_eval, show ((4:ℚ):ℝ) = 4 by norm_num] at hcast
  simp only [Except.map, Option.map_some'] at hcast
  have h0 : (coreCast (K := ℝ) ⟨⟨0,0,0,0,0,0⟩, ⟨0,0,0,0,0,0⟩, 3, 3⟩) =
      ⟨⟨0,0,0,0,0,0⟩, ⟨0,0,0,0,0,0⟩, 3, 3⟩ := by
    simp [coreCast, fitCast]
  rw [h0] at hcast
  have hmk : mkResult Real.sqrt (fun _ => (0:ℝ)) ⟨⟨0,0,0,0,0,0⟩, ⟨0,0,0,0,0,0⟩, 3, 3⟩ =
      { tau := 0, se := 0, t := none, p := none, ci_lo := 0, ci_hi := 0,
        n_pre := 3, n_post := 3, beta_l := (0,0), beta_r := (0,0) } := by
    simp [mkResult, Real.sqrt_zero]
  have hres : local_linear_rdd Real.sqrt (fun _ => (0:ℝ)) (Dz.map (obsCast (K := ℝ))) 4 =
      .ok (some { tau := 0, se := 0, t := none, p := none, ci_lo := 0, ci_hi := 0,
                  n_pre := 3, n_post := 3, beta_l := (0,0), beta_r := (0,0) }) := by
    rw [local_linear_rdd, hcast]
    simp only [Except.map, Option.map_some', hmk]
  constructor
  · exact ⟨_, hres, rfl, rfl⟩
  · intro hall
    have hcon := hall _ hres
    exact Option.noConfusion hcon

/-- Claim C2 (amended): for every weighted one-sided sample whose normal
matrix `XᵗWX` is invertible AND whose size is not exactly 2 (at `n = 2` the
HC1 factor `n/(n−k)` with `k = 2` raises `ZeroDivisionError` — see C10),
`wls_fit` returns exactly `beta = (XᵗWX)⁻¹ XᵗWy` and
`V = (XᵗWX)⁻¹ (XᵗW·diag(e²)·WX) (XᵗWX)⁻¹ · n/(n−k)`, with residuals `e`
taken from the returned coefficients. -/
theorem c2_wls_fit_matrix_form (T : List (Triple K)) (hdet : IsUnit (XtWXM T).det)
    (hn : T.length ≠ 2) :
    wlsFit T = .fit
      { b0 := (XtWXM T)⁻¹.mulVec (XtWyV T) 0
        b1 := (XtWXM T)⁻¹.mulVec (XtWyV T) 1
        V00 := VsandwichM T 0 0
        V01 := VsandwichM T 0 1
        V10 := VsandwichM T 1 0
        V11 := VsandwichM T 1 1 } := by
  have hne : detN T ≠ 0 := by
    rw [← detM_eq]
    exact hdet.ne_zero
  rw [wlsFit, if_neg hne, if_neg hn]
  have hinv := XtWXM_inv T
  congr 1
  simp only [Fit.mk.injEq]
  refine ⟨?_, ?_, ?_, ?_, ?_, ?_⟩
  all_goals
    simp only [VsandwichM, hinv, XtWyV, meatM, Matrix.smul_apply, Matrix.mul_apply,
      Matrix.mulVec, Matrix.dotProduct, Fin.sum_univ_two, Matrix.smul_mul, Matrix.mul_smul,
      Matrix.cons_val', Matrix.cons_val_zero, Matrix.cons_val_one, Matrix.head_cons,
      Matrix.head_fin_const, Matrix.empty_val', Matrix.cons_val_fin_one, Matrix.of_apply,
      smul_eq_mul, beta0, beta1, v00, v01, v10, v11, inv00, inv01, inv11, div_eq_mul_inv]
  all_goals ring

/-- Witness for C2 at the 3-row sample `Tw` over `ℚ`: the normal matrix is
invertible, `n = 3 ≠ 2`, and `wls_fit` returns the matrix-form coefficients
and sandwich covariance. -/
theorem c2_wls_fit_matrix_form_witness :
    IsUnit (XtWXM Tw).det ∧ Tw.length ≠ 2 ∧
    wlsFit Tw = .fit
      { b0 := (XtWXM Tw)⁻¹.mulVec (XtWyV Tw) 0
        b1 := (XtWXM Tw)⁻¹.mulVec (XtWyV Tw) 1
        V00 := VsandwichM Tw 0 0
        V01 := VsandwichM Tw 0 1
        V10 := VsandwichM Tw 1 0
        V11 := VsandwichM Tw 1 1 } := by
  have hdet : IsUnit (XtWXM Tw).det := by
    rw [detM_eq, show detN Tw = 25/8 from by with_unfolding_all rfl]
    exact isUnit_iff_ne_zero.mpr (by norm_num)
  have hn : Tw.length ≠ 2 := by
    rw [show Tw.length = 3 from rfl]
    norm_num
  exact ⟨hdet, hn, c2_wls_fit_matrix_form Tw hdet hn⟩

/-- Counterexample to C2 as stated: the two-row sample `Tc` has an invertible
normal matrix (`det = 1`), yet `wls_fit` does not return any `(beta, V)` —
it raises the uncaught `ZeroDivisionError` from `n/(n−k)` at `n = k = 2`. -/
theorem c2_counterexample_two_point_crash :
    IsUnit (XtWXM Tc).det ∧ wlsFit Tc = WlsOut.crash := by
  constructor
  · rw [detM_eq, show detN Tc = 1 from by with_unfolding_all rfl]
    exact isUnit_one
  · with_unfolding_all rfl

/-- Claim C3 (amended): bandwidths at which estimation fails are SILENTLY
OMITTED from the sweep table, not recorded with an "unavailable" marker: if
the sweep returns a table `rows` and the estimator returns `None` (a gap) at
some grid bandwidth `g`, then no row of `rows` carries bandwidth `g` — the
`if res:` guard of the source appends nothing on failure, so callers cannot
distinguish a failed bandwidth from one that was never in the grid. -/
theorem c3_failed_bandwidth_omitted (sq Φ : K → K) (data : List (Obs K))
    (rows : List (SweepRow K)) (g : ℕ)
    (hrows : sweep_rows sq Φ data = .ok rows)
    (hfail : local_linear_rdd sq Φ (window data (g : K)) (g : K) = .ok none) :
    rows.filter (fun row => row.h = (g : K)) = [] := by
  rw [List.filter_eq_nil_iff]
  intro row hrow
  simp only [decide_eq_true_eq]
  intro hEq
  obtain ⟨g', hg', r, hok, heq⟩ := sweepAux_rows_from sq Φ data sweepGrid rows hrows row hrow
  rw [heq] at hEq
  simp only [mkSweepRow] at hEq
  rw [Nat.cast_inj.mp hEq, hfail] at hok
  simp at hok

/-- Witness for C3 at the concrete dataset `D80`: the sweep succeeds with an
empty table, estimation fails at grid bandwidth 80, and no row carries
bandwidth 80. -/
theorem c3_failed_bandwidth_omitted_witness :
    sweep_rows id (fun _ => (0:ℚ)) D80 = .ok [] ∧
    local_linear_rdd id (fun _ => (0:ℚ)) (window D80 ((80:ℕ):ℚ)) ((80:ℕ):ℚ) = .ok none ∧
    List.filter (fun row => decide (row.h = ((80:ℕ):ℚ))) ([] : List (SweepRow ℚ)) = [] :=
  ⟨sweepD80_eval, rdd80_eval,
    c3_failed_bandwidth_omitted id (fun _ => 0) D80 [] 80 sweepD80_eval rdd80_eval⟩

/-- Counterexample to C3 as stated: on `D80`, bandwidth 80 is in the grid, is
admitted (80 windowed observations), and estimation fails there — yet the
sweep output is the empty table, with no gap marker at any position. -/
theorem c3_counterexample_no_gap_marker :
    80 ∈ sweepGrid ∧
    80 ≤ (window D80 ((80:ℕ):ℚ)).length ∧
    local_linear_rdd id (fun _ => (0:ℚ)) (window D80 ((80:ℕ):ℚ)) ((80:ℕ):ℚ) = .ok none ∧
    sweep_rows id (fun _ => (0:ℚ)) D80 = .ok [] :=
  ⟨by decide, cnt80_eval, rdd80_eval, sweepD80_eval⟩

/-- Claim C4 (amended): when one side of the cutoff has fewer than 2
observations, that side's normal matrix is singular, so its fit fails at the
solve (the caught `LinAlgError`; the source has no `InsufficientDataError`
and no pre-solve size check) and the estimator returns `None` — a recorded
gap, not a numeric estimate — PROVIDED the other side's fit does not raise
the uncaught `ZeroDivisionError` of the `n = 2` case (see C10 and the
counterexample, where the estimator crashes instead). -/
theorem c4_insufficient_side_gap (sq Φ : K → K) (data : List (Obs K)) (h : K)
    (hfew : (leftTriples data h).length < 2 ∨ (rightTriples data h).length < 2)
    (hlc : wlsFit (leftTriples data h) ≠ .crash)
    (hrc : wlsFit (rightTriples data h) ≠ .crash) :
    local_linear_rdd sq Φ data h = .ok none := by
  rw [local_linear_rdd]
  rcases hfew with hL | hR
  · have hs : wlsFit (leftTriples data h) = .sing := wlsFit_sing_of_detN (detN_short hL)
    simp only [rddCore, hs]
    cases hr : wlsFit (rightTriples data h) with
    | sing => rfl
    | crash => exact absurd hr hrc
    | fit f => rfl
  · have hs : wlsFit (rightTriples data h) = .sing := wlsFit_sing_of_detN (detN_short hR)
    cases hl : wlsFit (leftTriples data h) with
    | sing => simp only [rddCore, hl, hs]; rfl
    | crash => exact absurd hl hlc
    | fit f => simp only [rddCore, hl, hs]; rfl

/-- Witness for C4 at the dataset `Dc4` with bandwidth 10: the left side has
one observation, neither side crashes, and the estimator returns the gap. -/
theorem c4_insufficient_side_gap_witness :
    ((leftTriples Dc4 (10:ℚ)).length < 2 ∨ (rightTriples Dc4 (10:ℚ)).length < 2) ∧
    wlsFit (leftTriples Dc4 (10:ℚ)) ≠ .crash ∧
    wlsFit (rightTriples Dc4 (10:ℚ)) ≠ .crash ∧
    local_linear_rdd id (fun _ => (0:ℚ)) Dc4 10 = .ok none := by
  have hfew : (leftTriples Dc4 (10:ℚ)).length < 2 ∨ (rightTriples Dc4 (10:ℚ)).length < 2 :=
    Or.inl (by
      rw [show (leftTriples Dc4 (10:ℚ)).length = 1 from by with_unfolding_all rfl]
      norm_num)
  have hlc : wlsFit (leftTriples Dc4 (10:ℚ)) ≠ .crash := by
    rw [show wlsFit (leftTriples Dc4 (10:ℚ)) = .sing from by with_unfolding_all rfl]
    intro hcon
    exact WlsOut.noConfusion hcon
  have hrc : wlsFit (rightTriples Dc4 (10:ℚ)) ≠ .crash := by
    rw [show wlsFit (rightTriples Dc4 (10:ℚ)) = .fit ⟨72/241, 9/241, 1083196800/3373402561,
      -450230400/3373402561, -450230400/3373402561, 576201600/3373402561⟩ from by
        with_unfolding_all rfl]
    intro hcon
    exact WlsOut.noConfusion hcon
  exact ⟨hfew, hlc, hrc, c4_insufficient_side_gap id (fun _ => 0) Dc4 10 hfew hlc hrc⟩

/-- Counterexample to C4 as stated: on `Dc4b` (one left observation, exactly
two right observations with distinct `x`) the estimator does NOT produce a
recorded gap — it crashes with the uncaught `ZeroDivisionError` from the
right side's HC1 scale, even though the left side has fewer than 2 points. -/
theorem c4_counterexample_crash :
    (leftTriples (K := ℚ) Dc4b 10).length < 2 ∧
    local_linear_rdd id (fun _ => (0:ℚ)) Dc4b 10 = .error .zeroDivisionError := by
  constructor
  · rw [show (leftTriples (K := ℚ) Dc4b 10).length = 1 from by with_unfolding_all rfl]
    norm_num
  · with_unfolding_all rfl

/-- Claim C5 (amended): the source contains no `InvalidBandwidthError` and no
validation of `h`.  For every `h ≤ 0` the estimator runs to completion and
returns `None` (for `h < 0` the window is empty; for `h = 0` only `x = 0`
rows survive and both designs are singular), and for `h < 0` the kernel
still computes weights by the same formula — `w = 1 − |x|/h ≥ 1` — rather
than rejecting the bandwidth before any computation. -/
theorem c5_nonpositive_bandwidth (sq Φ : K → K) (data : List (Obs K)) (h x : K)
    (hh : h ≤ 0) :
    local_linear_rdd sq Φ data h = .ok none ∧
    (h < 0 → triangular_weights x h = 1 - |x| / h ∧ 1 ≤ triangular_weights x h) := by
  constructor
  · rw [local_linear_rdd, rddCore_nonpos hh]
    rfl
  · intro hneg
    have hdiv : |x| / h ≤ 0 := by
      rw [div_nonpos_iff]
      exact Or.inl ⟨abs_nonneg x, hneg.le⟩
    have hmax : triangular_weights x h = 1 - |x| / h := max_eq_left (by linarith)
    exact ⟨hmax, by rw [hmax]; linarith⟩

/-- Witness for C5 at `h = -1` on a one-point dataset over `ℚ`. -/
theorem c5_nonpositive_bandwidth_witness :
    ((-1:ℚ) ≤ 0) ∧
    (local_linear_rdd id (fun _ => (0:ℚ)) [⟨1, 1⟩] (-1) = .ok none ∧
      ((-1:ℚ) < 0 → triangular_weights (5:ℚ) (-1) = 1 - |(5:ℚ)| / (-1) ∧
        1 ≤ triangular_weights (5:ℚ) (-1))) :=
  ⟨by norm_num, c5_nonpositive_bandwidth id (fun _ => 0) [⟨1, 1⟩] (-1) 5 (by norm_num)⟩

/-- Counterexample to C5 as stated: at the non-positive bandwidth `h = -1`
the kernel produces the weight 6 for distance 5 (weights ARE produced) and
the estimator returns a normal `None` — no `InvalidBandwidthError` exists in
the source and nothing is rejected before computation. -/
theorem c5_counterexample_no_rejection :
    triangular_weights (5:ℚ) (-1) = 6 ∧
    local_linear_rdd id (fun _ => (0:ℚ)) ([⟨1, 1⟩] : List (Obs ℚ)) (-1) = .ok none := by
  constructor
  · with_unfolding_all rfl
  · with_unfolding_all rfl

/-- Claim C6: for every distance `x` and bandwidth `h > 0` the kernel weight
equals `max(1 − |x|/h, 0)`; moreover `weight(0, h) = 1`, `weight(h, h) = 0`,
`weight(−x, h) = weight(x, h)`, and the weight is non-increasing in `|x|`. -/
theorem c6_kernel_properties (h x x1 x2 : K) (hh : 0 < h) :
    triangular_weights x h = max (1 - |x| / h) 0 ∧
    triangular_weights 0 h = 1 ∧
    triangular_weights h h = 0 ∧
    triangular_weights (-x) h = triangular_weights x h ∧
    (|x1| ≤ |x2| → triangular_weights x2 h ≤ triangular_weights x1 h) := by
  refine ⟨rfl, ?_, ?_, ?_, ?_⟩
  · rw [triangular_weights, abs_zero, zero_div, sub_zero]
    exact max_eq_left zero_le_one
  · rw [triangular_weights, abs_of_pos hh, div_self hh.ne', sub_self]
    exact max_self 0
  · rw [triangular_weights, triangular_weights, abs_neg]
  · intro hle
    apply max_le_max _ le_rfl
    apply sub_le_sub_left
    exact (div_le_div_iff_of_pos_right hh).mpr hle

/-- Witness for C6 at `h = 2`, `x = 3`, `x1 = 1`, `x2 = 2` over `ℚ`. -/
theorem c6_kernel_properties_witness :
    (0:ℚ) < 2 ∧
    (triangular_weights (3:ℚ) 2 = max (1 - |(3:ℚ)| / 2) 0 ∧
      triangular_weights (0:ℚ) 2 = 1 ∧
      triangular_weights (2:ℚ) 2 = 0 ∧
      triangular_weights (-(3:ℚ)) 2 = triangular_weights (3:ℚ) 2 ∧
      (|(1:ℚ)| ≤ |(2:ℚ)| → triangular_weights (2:ℚ) 2 ≤ triangular_weights (1:ℚ) 2)) :=
  ⟨by norm_num, c6_kernel_properties 2 3 1 2 (by norm_num)⟩

/-- Claim C7: on the concrete scenario `D7` — 200 pre-cutoff observations
with outcome mean 0.10 and 200 post-cutoff observations with outcome mean
0.30, running variable spread uniformly over `[-50, 50]`, bandwidth 50 —
the estimator returns exactly `tau = 0.20` and `p < 0.05`.  `Φ` is the
standard normal CDF, abstracted by the two properties actually used:
monotonicity and `Φ(1.96) > 0.975`. -/
theorem c7_concrete_scenario (Φ : ℝ → ℝ) (hmono : Monotone Φ) (hPhi : 39/40 < Φ (49/25)) :
    ∃ r pv, local_linear_rdd Real.sqrt Φ (D7.map (obsCast (K := ℝ))) 50 = .ok (some r) ∧
      r.tau = 1/5 ∧ r.p = some pv ∧ pv < 1/20 := by
  have hcast := rddCore_cast (K := ℝ) D7 50
  rw [rddCore_D7_eval, show ((50:ℚ):ℝ) = 50 by norm_num] at hcast
  simp only [Except.map, Option.map_some'] at hcast
  have hres : local_linear_rdd Real.sqrt Φ (D7.map (obsCast (K := ℝ))) 50 =
      .ok (some (mkResult Real.sqrt Φ (coreCast ⟨fitL7, fitR7, 200, 200⟩))) := by
    rw [local_linear_rdd, hcast]
    rfl
  set c : RddCore ℝ := coreCast ⟨fitL7, fitR7, 200, 200⟩ with hc
  have hV : c.fr.V00 + c.fl.V00 = (33330833 / 68715627750 : ℝ) := by
    rw [hc]
    simp only [coreCast, fitCast, fitL7, fitR7]
    push_cast
    norm_num
  have htau : c.fr.b0 - c.fl.b0 = (1/5 : ℝ) := by
    rw [hc]
    simp only [coreCast, fitCast, fitL7, fitR7]
    push_cast
    norm_num
  have hsepos : 0 < Real.sqrt (c.fr.V00 + c.fl.V00) := by
    rw [hV]
    exact Real.sqrt_pos.mpr (by norm_num)
  have hse_le : Real.sqrt (c.fr.V00 + c.fl.V00) ≤ 5/49 := by
    rw [hV]
    calc Real.sqrt (33330833 / 68715627750 : ℝ)
        ≤ Real.sqrt ((5/49 : ℝ)^2) := Real.sqrt_le_sqrt (by norm_num)
      _ = 5/49 := Real.sqrt_sq (by norm_num)
  have ht49 : (49/25 : ℝ) ≤ (c.fr.b0 - c.fl.b0) / Real.sqrt (c.fr.V00 + c.fl.V00) := by
    rw [htau, le_div_iff₀ hsepos]
    calc (49/25 : ℝ) * Real.sqrt (c.fr.V00 + c.fl.V00)
        ≤ (49/25 : ℝ) * (5/49) := mul_le_mul_of_nonneg_left hse_le (by norm_num)
      _ = 1/5 := by norm_num
  have habs : (49/25 : ℝ) ≤ |(c.fr.b0 - c.fl.b0) / Real.sqrt (c.fr.V00 + c.fl.V00)| :=
    le_trans ht49 (le_abs_self _)
  refine ⟨mkResult Real.sqrt Φ c,
    2 * (1 - Φ |(c.fr.b0 - c.fl.b0) / Real.sqrt (c.fr.V00 + c.fl.V00)|), hres, ?_, ?_, ?_⟩
  · show c.fr.b0 - c.fl.b0 = 1/5
    exact htau
  · show (if 0 < Real.sqrt (c.fr.V00 + c.fl.V00) then
        some ((c.fr.b0 - c.fl.b0) / Real.sqrt (c.fr.V00 + c.fl.V00)) else none).map _ = _
    rw [if_pos hsepos]
    rfl
  · have hmon := hmono habs
    linarith

/-- Witness for C7: the hypotheses on the abstract CDF are satisfiable (for
example by the constant function 1, which is monotone with value above
0.975 at 1.96). -/
theorem c7_concrete_scenario_witness :
    ∃ r pv, local_linear_rdd Real.sqrt (fun _ => 1) (D7.map (obsCast (K := ℝ))) 50 =
      .ok (some r) ∧ r.tau = 1/5 ∧ r.p = some pv ∧ pv < 1/20 :=
  c7_concrete_scenario (fun _ => 1) monotone_const (by norm_num)

/-- Claim C8: the sweep runs the estimator at exactly the grid bandwidths
whose windowed sample has at least 80 observations — all others are skipped
before the estimator is invoked (`if len(d) < 80: continue`), and the
admitted ones are attempted in ascending grid order. -/
theorem c8_sweep_admission (sq Φ : K → K) (data : List (Obs K)) :
    sweep_rows sq Φ data =
      sweepAttempt sq Φ data (sweepGrid.filter fun g => 80 ≤ (window data (g : K)).length) :=
  sweepAux_eq_attempt sq Φ data sweepGrid

/-- Claim C9: the estimator applied to the pre-filtered dataset (as the sweep
does: `d = likud[...abs() <= h]` before `local_linear_rdd(d, h)`) gives
exactly the same result as the estimator applied to the full dataset at the
same bandwidth, because the estimator's own first step repeats the identical
window filter; both paths are the same pure function with the same analytic
HC1 standard error (no bootstrap and no cluster resampling appear anywhere
in the model). -/
theorem c9_prefilter_equivalence (sq Φ : K → K) (data : List (Obs K)) (h : K) :
    local_linear_rdd sq Φ (window data h) h = local_linear_rdd sq Φ data h := by
  rw [local_linear_rdd, local_linear_rdd, rddCore_window]

/-- Claim C10: on a one-sided sample of exactly 2 observations with distinct
running-variable values and positive weights, the normal matrix is invertible
(determinant `w₁w₂(x₁−x₂)² ≠ 0`), the solve succeeds, and `wls_fit` then
divides by `n − k = 0`: the uncaught `ZeroDivisionError` propagates and the
estimator crashes instead of returning a result or a gap — the
`try/except` of the source guards only `np.linalg.solve`. -/
theorem c10_two_point_crash (sq Φ : K → K) (data : List (Obs K)) (h : K)
    (t1 t2 : Triple K) (hw1 : 0 < t1.w) (hw2 : 0 < t2.w) (hx : t1.x ≠ t2.x)
    (hside : leftTriples data h = [t1, t2]) :
    wlsFit (leftTriples data h) = .crash ∧
    local_linear_rdd sq Φ data h = .error .zeroDivisionError := by
  have hdet : detN [t1, t2] ≠ 0 := by
    rw [detN_pair]
    exact mul_ne_zero (mul_ne_zero hw1.ne' hw2.ne') (pow_ne_zero 2 (sub_ne_zero.mpr hx))
  have hcrash : wlsFit (leftTriples data h) = .crash := by
    rw [hside, wlsFit, if_neg hdet]
    simp
  refine ⟨hcrash, ?_⟩
  rw [local_linear_rdd]
  simp only [rddCore, hcrash]
  rfl

/-- Witness for C10 at the two-point dataset `Dc10` with bandwidth 10. -/
theorem c10_two_point_crash_witness :
    (0:ℚ) < (4/5 : ℚ) ∧ (0:ℚ) < (9/10 : ℚ) ∧ (-2:ℚ) ≠ (-1:ℚ) ∧
    leftTriples Dc10 (10:ℚ) = [⟨-2, 0, 4/5⟩, ⟨-1, 0, 9/10⟩] ∧
    (wlsFit (leftTriples Dc10 (10:ℚ)) = .crash ∧
      local_linear_rdd id (fun _ => (0:ℚ)) Dc10 10 = .error .zeroDivisionError) := by
  have hside : leftTriples Dc10 (10:ℚ) = [⟨-2, 0, 4/5⟩, ⟨-1, 0, 9/10⟩] := by
    with_unfolding_all rfl
  exact ⟨by norm_num, by norm_num, by norm_num, hside,
    c10_two_point_crash id (fun _ => 0) Dc10 10 ⟨-2, 0, 4/5⟩ ⟨-1, 0, 9/10⟩
      (by norm_num) (by norm_num) (by norm_num) hside⟩

end RDD
